import Mathlib

/-!
Verification development for the yt-chat-signaler client
(src/src/YtChatSignaler.ts).

The development shallowly embeds the parts of the client that the
specification talks about:

* the JavaScript runtime values that JSON.parse can produce, together
  with the indexing / optional-chaining / truthiness operations the
  client uses (JVal, jsElem, jsChain, jsIndexE, jsFalsy);
* the stream framer processBuffer (length-prefixed frames), modelled
  byte-for-byte on the source including the JS substring clamping
  semantics; the source loop does not terminate when the parsed prefix
  makes the consumed length non-positive, which the model represents by
  returning none;
* the frame classifier handleMessage / isPingEvent;
* the session registry (join / stop), the reconnect policy
  (handleConnectionError and the backoff formula), the handshake step
  getSID, and the connect lifecycle (chooseServer, listen, connect).

JSON.parse itself is modelled abstractly: functions that parse take the
parse outcome (or a parse oracle of type List Char → Option JVal, where
none models a thrown SyntaxError) as an argument.  Strings are modelled
as List Char.  JS numbers are modelled as Int plus an explicit NaN
constructor; the claims under verification only exercise integer values.
Console logging (console.error) has no effect on state or on the event
surface and is not modelled.
-/

namespace Yt

/-- A JavaScript value as producible by JSON.parse, plus NaN (which the
client can manufacture at runtime via arithmetic on non-numbers).
Numbers are modelled as integers: every numeric literal the client
inspects is integral. -/
inductive JVal where
  | null : JVal
  | bool : Bool → JVal
  | num : Int → JVal
  | nan : JVal
  | str : List Char → JVal
  | arr : List JVal → JVal
  | obj : List (List Char × JVal) → JVal

/-- A JS expression result: some v is a defined value, none is undefined. -/
abbrev JSVal := Option JVal

/-- Decimal digit characters for object keys and for the frame-length
encoder ('0'..'9'). -/
def digitCh (n : Nat) : Char :=
  match n with
  | 0 => '0' | 1 => '1' | 2 => '2' | 3 => '3' | 4 => '4'
  | 5 => '5' | 6 => '6' | 7 => '7' | 8 => '8' | _ => '9'

/-- Decimal digits of a natural number, most significant first
(fuel-structured so the kernel can evaluate it; fuel n+1 always
suffices because n/10 < n). -/
def natDigitsAux : Nat → Nat → List Char
  | 0, _ => []
  | fuel + 1, n =>
    if n < 10 then [digitCh n]
    else natDigitsAux fuel (n / 10) ++ [digitCh (n % 10)]

def natDigits (n : Nat) : List Char := natDigitsAux (n + 1) n

/-- Indexing a defined JS value with a natural-number index, as in v[i].
Returns undefined (none) where JS would; the null case is unreachable
from jsChain / jsIndexE, which treat null separately (JS throws there). -/
def jsElem (x : JVal) (i : Nat) : JSVal :=
  match x with
  | .null => none
  | .bool _ => none
  | .num _ => none
  | .nan => none
  | .str s => (s.get? i).map (fun ch => JVal.str [ch])
  | .arr xs => xs.get? i
  | .obj kvs => kvs.lookup (natDigits i)

/-- Optional chaining v?.[i]: undefined when v is null or undefined,
otherwise plain indexing. -/
def jsChain (v : JSVal) (i : Nat) : JSVal :=
  match v with
  | none => none
  | some .null => none
  | some x => jsElem x i

/-- Plain indexing v[i] as an Except: a TypeError is thrown when v is
null or undefined. -/
def jsIndexE (v : JSVal) (i : Nat) : Except Unit JSVal :=
  match v with
  | none => .error ()
  | some .null => .error ()
  | some x => .ok (jsElem x i)

/-- JS truthiness test (negated): jsFalsy v = true iff !v is true in JS. -/
def jsFalsy : JSVal → Bool
  | none => true
  | some .null => true
  | some (.bool b) => !b
  | some (.num n) => n == 0
  | some .nan => true
  | some (.str s) => s.isEmpty
  | some (.arr _) => false
  | some (.obj _) => false

/-- The strict comparison sequence === 1 used by handleMessage. -/
def seqIsOne : JSVal → Bool
  | some (.num 1) => true
  | _ => false

/-- The test typeof v === 'string'. -/
def isStringV : JSVal → Bool
  | some (.str _) => true
  | _ => false

/-- The strict comparison v === null (undefined === null is false). -/
def isNullV : JSVal → Bool
  | some .null => true
  | _ => false

/-! ## Numeric string parsing (parseInt and Number) -/

def isDigitCh (c : Char) : Bool := '0' ≤ c && c ≤ '9'

/-- The whitespace characters relevant here (a subset of the JS
whitespace class: space, tab, newline, carriage return). -/
def jsWhitespace (c : Char) : Bool :=
  c == ' ' || c == '\t' || c == '\n' || c == '\r'

def digitsToNat (ds : List Char) : Nat :=
  ds.foldl (fun a c => 10 * a + (c.toNat - 48)) 0

/-- Value of the longest digit prefix, none if there is no digit
(parseInt returns NaN then). -/
def digitsVal (s : List Char) : Option Nat :=
  let ds := s.takeWhile isDigitCh
  if ds.isEmpty then none else some (digitsToNat ds)

/-- JS parseInt(s, 10): skip leading whitespace, optional sign, then the
longest digit prefix; NaN (none) when no digit follows. -/
def parseIntJS (s : List Char) : Option Int :=
  match s.dropWhile jsWhitespace with
  | [] => none
  | c :: rest =>
    if c = '-' then (digitsVal rest).map (fun n => -(n : Int))
    else if c = '+' then (digitsVal rest).map (fun n => (n : Int))
    else (digitsVal (c :: rest)).map (fun n => (n : Int))

def trimWs (s : List Char) : List Char :=
  ((s.dropWhile jsWhitespace).reverse.dropWhile jsWhitespace).reverse

/-- JS Number(s) restricted to integer strings: the empty (trimmed)
string is 0, a signed run of digits is its value, anything else is NaN
(none).  Fractional / hex / exponent notations, which the client never
feeds to Number in the verified claims, are mapped to NaN. -/
def jsToNumber (s : List Char) : Option Int :=
  match trimWs s with
  | [] => some 0
  | c :: rest =>
    if c = '-' then
      if rest.isEmpty || !rest.all isDigitCh then none
      else some (-(digitsToNat rest : Int))
    else if c = '+' then
      if rest.isEmpty || !rest.all isDigitCh then none
      else some ((digitsToNat rest : Int))
    else
      if (c :: rest).all isDigitCh then some ((digitsToNat (c :: rest) : Int))
      else none

/-- The ++ operator on a JS value (chatData.AID++ in listen).  Arrays and
objects coerce through toString in JS; arrays are mapped to NaN here (the
claims never increment a non-numeric AID). -/
def jsIncr : JSVal → JSVal
  | some (.num n) => some (.num (n + 1))
  | some .nan => some .nan
  | some .null => some (.num 1)
  | some (.bool b) => some (.num (if b then 2 else 1))
  | some (.str s) =>
    match jsToNumber s with
    | some n => some (.num (n + 1))
    | none => some .nan
  | some (.arr _) => some .nan
  | some (.obj _) => some .nan
  | none => some .nan

/-! ## The framer: processBuffer -/

/-- Index of the first '[' in the buffer (buffer.indexOf of the source). -/
def firstBracketIdx : List Char → Option Nat
  | [] => none
  | c :: t => if c = '[' then some 0 else (firstBracketIdx t).map (· + 1)

/-- JS String.prototype.substring index clamping: negative indices become
0, indices past the end become the length. -/
def clampIdx (len : Nat) (i : Int) : Nat :=
  if i ≤ 0 then 0 else if (len : Int) ≤ i then len else i.toNat

/-- JS buffer.substring(s, e): clamp both indices and swap them when
s > e. -/
def jsSubstring (b : List Char) (s e : Int) : List Char :=
  let s2 := clampIdx b.length s
  let e2 := clampIdx b.length e
  if s2 ≤ e2 then (b.take e2).drop s2 else (b.take s2).drop e2

/-- JS buffer.substring(s). -/
def jsSubstringFrom (b : List Char) (s : Int) : List Char :=
  b.drop (clampIdx b.length s)

/-- One run of the processBuffer while-loop, returning the list of
dispatched (payload, messageLength) pairs and the leftover buffer.
Fuel-structured: each consuming iteration strictly shortens the buffer,
so fuel b.length + 1 always suffices (see processBufferF_irrel).  The
source loop runs forever when the parsed prefix yields a non-positive
total length (the buffer is then never shortened); the model returns
none on that branch, so none means the source does not terminate. -/
def processBufferF : Nat → List Char → Option (List (List Char × Int) × List Char)
  | 0, _ => none
  | fuel + 1, b =>
    match firstBracketIdx b with
    | none => some ([], b)
    | some j =>
      match parseIntJS (b.take j) with
      | none => some ([], b.drop j)
      | some n =>
        if (b.length : Int) < (j : Int) + n then some ([], b)
        else if (j : Int) + n ≤ 0 then none
        else
          match processBufferF fuel (jsSubstringFrom b ((j : Int) + n)) with
          | none => none
          | some (fs, r) => some ((jsSubstring b (j : Int) ((j : Int) + n), n) :: fs, r)

/-- processBuffer of the source (private processBuffer(buffer, chatId)),
decomposed into the dispatched frames and the returned leftover.  The
frames are handed to handleMessage in order by the source; the
decomposition is faithful because the loop control flow never depends on
the chat state handleMessage mutates. -/
def processBuffer (b : List Char) : Option (List (List Char × Int) × List Char) :=
  processBufferF (b.length + 1) b

/-! ## The wire encoding of §4.3 (spec side)

Modelled from the spec: the repository contains only the decoder; the
encoding <decimal-length><payload> is the spec's description of the wire
format (§4.3), used to state the chunk-independence claim. -/

def encodeFrame (p : List Char) : List Char := natDigits p.length ++ p

def encodeStream (ps : List (List Char)) : List Char :=
  (ps.map encodeFrame).flatten

/-- Incremental feeding: the accumulated leftover plus each new chunk is
run through processBuffer, as the listen read-loop does. -/
def feedChunks : List (List Char) → List Char → Option (List (List Char × Int) × List Char)
  | [], buf => some ([], buf)
  | c :: cs, buf =>
    match processBuffer (buf ++ c) with
    | none => none
    | some (fs, buf2) =>
      match feedChunks cs buf2 with
      | none => none
      | some (fs2, r) => some (fs ++ fs2, r)

/-! ## Session state, events, registry -/

/-- The per-chat state record (type Chat of the source).  SID and AID
are stored as JS values: the TS types say string / number, but the
runtime assigns them raw positions of decoded JSON (getSID stores
configData[1] unchecked; handleMessage stores parsedMessage[0][0]
unchecked).  refreshInterval models whether the refresh timer handle
field has been set (startCredentialRefresh). -/
structure Chat where
  chatId : String
  running : Bool
  gsessionid : List Char
  nextRid : Nat
  SID : JSVal
  AID : JSVal
  credsToken : List Char
  reconnectAttempts : Nat
  refreshInterval : Bool

/-- The events the client emits on its EventEmitter surface, restricted
to those the verified claims mention.  Error messages are modelled as
fixed strings (the source interpolates status texts into them). -/
inductive Event where
  | gsessionIdObtained : List Char → Event
  | sidObtained : (rpcAid : Option Int) → (cuhnkIndex sid timeoutMs aid command gsessionid version : JSVal) → Event
  | connected : Chat → Event
  | ping : (tms : JSVal) → Chat → Event
  | data : (messageLength : Int) → (sequence : JSVal) → (frame : JVal) → Chat → Event
  | part : Chat → Event
  | reconnecting : (attempts : Nat) → (waitTime : Nat) → Event
  | connectionError : String → Event

/-- The chats map of the client, keyed by chat id. -/
abbrev Registry := String → Option Chat

def emptyReg : Registry := fun _ => none

def updateReg (reg : Registry) (id : String) (c : Chat) : Registry :=
  fun x => if x = id then some c else reg x

def eraseReg (reg : Registry) (id : String) : Registry :=
  fun x => if x = id then none else reg x

/-- Client configuration (the three reconnect options of ClientOptions;
maxReconnectAttempts may be non-positive, meaning unlimited retries). -/
structure Config where
  maxReconnectAttempts : Int
  initialReconnectDelayMs : Nat
  maxReconnectWaitMs : Nat

/-- The fresh Chat record join creates (rid0 stands for the random
Math.floor(1E5 * Math.random()) seed). -/
def newChat (id : String) (rid0 : Nat) : Chat :=
  { chatId := id, running := true, nextRid := rid0, AID := some (.num 0),
    gsessionid := [], SID := some (.str []), credsToken := [],
    reconnectAttempts := 0, refreshInterval := false }

/-- public join(chatId): no-op when the id is present, otherwise insert a
fresh Chat.  The returned Bool records whether a lifecycle was started
(this.connect is then invoked asynchronously; its first awaited request
means no session state changes before join returns). -/
def join (reg : Registry) (id : String) (rid0 : Nat) : Registry × Bool :=
  match reg id with
  | some _ => (reg, false)
  | none => (updateReg reg id (newChat id rid0), true)

/-- public stop(chatId): when present, set running to false, cancel the
refresh timer, emit 'part' with the session snapshot, delete the entry.
(clearInterval cancels the timer but the handle field keeps its value,
so refreshInterval is unchanged in the snapshot.) -/
def stop (reg : Registry) (id : String) : Registry × List Event :=
  match reg id with
  | none => (reg, [])
  | some c =>
    (eraseReg reg id, [Event.part { c with running := false }])

/-- The backoff computation of handleConnectionError:
initialReconnectDelayMs * 2^attempts capped at maxReconnectWaitMs.  The
source computes it in floating point (Math.pow / Math.min); the values
involved are exact integers well below 2^53. -/
def computeWait (initialDelayMs maxWaitMs : Nat) (attempts : Nat) : Nat :=
  min (initialDelayMs * 2 ^ attempts) maxWaitMs

/-- The fixed message of the give-up error (the source interpolates the
chat id and attempt bound into it). -/
def maxAttemptsMsg : String := "Failed to connect after max attempts."

/-- private handleConnectionError(chatId, error): abort silently when the
chat is absent or stopped; emit 'connectionError'; when the configured
maximum is positive and reached, emit a second (fatal) 'connectionError'
and stop the session; otherwise compute the backoff wait, increment the
attempt counter, emit 'reconnecting' with the new count and the wait,
and schedule a retry after the wait (the returned Option Nat). -/
def handleConnectionError (cfg : Config) (reg : Registry) (id : String) (err : String) :
    Registry × List Event × Option Nat :=
  match reg id with
  | none => (reg, [], none)
  | some c =>
    if !c.running then (reg, [], none)
    else if 0 < cfg.maxReconnectAttempts ∧ cfg.maxReconnectAttempts ≤ (c.reconnectAttempts : Int) then
      let s := stop reg id
      (s.1, Event.connectionError err :: Event.connectionError maxAttemptsMsg :: s.2, none)
    else
      let wait := computeWait cfg.initialReconnectDelayMs cfg.maxReconnectWaitMs c.reconnectAttempts
      let c2 := { c with reconnectAttempts := c.reconnectAttempts + 1 }
      (updateReg reg id c2,
       [Event.connectionError err, Event.reconnecting c2.reconnectAttempts wait],
       some wait)

/-! ## Frame classification: isPingEvent and handleMessage -/

/-- The nested position event?.[1]?.[0]?.[0]?.[0]?.[1] inspected by
isPingEvent. -/
def pingPayload (event : JSVal) : JSVal :=
  jsChain (jsChain (jsChain (jsChain (jsChain event 1) 0) 0) 0) 1

/-- function isPingEvent(event): the payload at the fixed nested path is
an array whose first two elements are null and whose third element
indexes to a string at position 0 (payload[2]?.[0]). -/
def isPingEvent (event : JSVal) : Bool :=
  match pingPayload event with
  | some (.arr xs) =>
    isNullV (xs.get? 0) && isNullV (xs.get? 1) && isStringV (jsChain (xs.get? 2) 0)
  | _ => false

/-- parsedMessage[0]?.[1]?.[0]?.[2], the location of the credentials
token array. -/
def credsPath (e0 : JSVal) : JSVal :=
  jsChain (jsChain (jsChain e0 1) 0) 2

/-- parsedMessage[0][1][0][0][0][1][2][0], the plain-indexed timestamp
extraction of the ping emit (any throw in it would be caught by the
enclosing try, leaving only the console report). -/
def pingTms (e0 : JSVal) : Except Unit JSVal :=
  match jsIndexE e0 1 with
  | .error u => .error u
  | .ok a =>
    match jsIndexE a 0 with
    | .error u => .error u
    | .ok b =>
      match jsIndexE b 0 with
      | .error u => .error u
      | .ok d =>
        match jsIndexE d 0 with
        | .error u => .error u
        | .ok e =>
          match jsIndexE e 1 with
          | .error u => .error u
          | .ok f =>
            match jsIndexE f 2 with
            | .error u => .error u
            | .ok g => jsIndexE g 0

/-- private handleMessage(jsonStr, chatId, messageLength).  The parsed
argument is the JSON.parse outcome of the frame payload (none models a
thrown SyntaxError).  Any throw inside the try block is caught and only
logged: no event is emitted and no further field is assigned, but
assignments already performed (chatData.AID) stay. -/
def handleMessage (c : Chat) (parsed : Option JVal) (messageLength : Int) : Chat × List Event :=
  match parsed with
  | none => (c, [])
  | some pm =>
    match jsIndexE (some pm) 0 with
    | .error _ => (c, [])
    | .ok e0 =>
      match jsIndexE e0 0 with
      | .error _ => (c, [])
      | .ok seq =>
        let c1 := { c with AID := seq }
        if seqIsOne seq then
          match jsChain (credsPath e0) 0 with
          | some (.str s) =>
            let c2 := { c1 with credsToken := s }
            (c2, [Event.connected c2])
          | _ =>
            if isPingEvent e0 then
              match pingTms e0 with
              | .ok tms => (c1, [Event.ping tms c1])
              | .error _ => (c1, [])
            else (c1, [Event.data messageLength seq pm c1])
        else
          if isPingEvent e0 then
            match pingTms e0 with
            | .ok tms => (c1, [Event.ping tms c1])
            | .error _ => (c1, [])
          else (c1, [Event.data messageLength seq pm c1])

/-- Dispatch of a decoded frame list in stream order, as the
processBuffer loop does (each frame's payload is parsed and handed to
handleMessage with its parsed length). -/
def dispatchFrames (jsonParse : List Char → Option JVal) (c : Chat) :
    List (List Char × Int) → Chat × List Event
  | [] => (c, [])
  | f :: rest =>
    let r1 := handleMessage c (jsonParse f.1) f.2
    let r2 := dispatchFrames jsonParse r1.1 rest
    (r2.1, r1.2 ++ r2.2)

/-! ## Handshake and connect lifecycle

Each lifecycle step returns the mutated chat, the events emitted so far
and an Option String error: some msg models a thrown Error (whose
message the source partly interpolates; fixed strings here), which
connect routes to handleConnectionError.  Network outcomes are supplied
by a ConnectEnv record. -/

/-- The network and parsing environment of one connect cycle. -/
structure ConnectEnv where
  chooseServerOk : Bool
  gsessionidResp : List Char
  getSIDRespOk : Bool
  getSIDText : List Char
  listenOpenOk : Bool
  chunks : List (List Char)
  jsonParse : List Char → Option JVal

/-- JS text.split of a one-character separator, specialised to the
newline split of getSID. -/
def splitNl : List Char → List (List Char)
  | [] => [[]]
  | c :: t =>
    if c = '\n' then [] :: splitNl t
    else
      match splitNl t with
      | [] => [[c]]
      | h :: r => (c :: h) :: r

/-- Step 1, private chooseServer(chatId): on HTTP failure throw;
otherwise store data[0] as gsessionid, emit 'gsessoinId', consume one
request id, and issue the OPTIONS preflight (whose response is not
interpreted).  The re-lookup of the chat cannot fail in this sequential
embedding (the caller just found it). -/
def chooseServer (c : Chat) (env : ConnectEnv) : Chat × List Event × Option String :=
  if !env.chooseServerOk then (c, [], some "chooseServer failed")
  else
    let c1 := { c with gsessionid := env.gsessionidResp }
    let c2 := { c1 with nextRid := c1.nextRid + 1 }
    (c2, [Event.gsessionIdObtained c1.gsessionid], none)

/-- Step 2, private getSID(chatId): throw when gsessionid is missing;
consume a request id; throw on HTTP failure; split the response text on
newlines and throw when fewer than 2 lines; read the acknowledgment
number with Number(lines[0]); JSON.parse lines[1] (a parse failure
throws); take configData = sidData[0][1] (plain indexing, throws on
null/undefined); take sid = configData[1] and throw when it is falsy;
store it in SID and emit the 'sid' event with the decoded tuple fields.
The session's AID field is not touched by this step. -/
def getSID (jsonParse : List Char → Option JVal) (c : Chat) (respOk : Bool) (text : List Char) :
    Chat × List Event × Option String :=
  if c.gsessionid.isEmpty then (c, [], some "gsessionid not found for getSID")
  else
    let c1 := { c with nextRid := c.nextRid + 1 }
    if !respOk then (c1, [], some "getSID failed")
    else
      let lines := splitNl text
      if lines.length < 2 then (c1, [], some "Invalid response from getSID.")
      else
        let aid := jsToNumber (lines.getD 0 [])
        match jsonParse (lines.getD 1 []) with
        | none => (c1, [], some "SyntaxError")
        | some sidData =>
          match jsIndexE (some sidData) 0 with
          | .error _ => (c1, [], some "TypeError")
          | .ok sd0 =>
            match jsIndexE sd0 1 with
            | .error _ => (c1, [], some "TypeError")
            | .ok configData =>
              match jsIndexE configData 1 with
              | .error _ => (c1, [], some "TypeError")
              | .ok sid =>
                if jsFalsy sid then (c1, [], some "Could not extract SID from response.")
                else
                  let c2 := { c1 with SID := sid }
                  (c2,
                   [Event.sidObtained aid (jsChain sd0 0) sid (jsChain configData 5)
                      (jsChain configData 4) (jsChain configData 0) (jsChain configData 2)
                      (jsChain configData 3)],
                   none)

/-- private startCredentialRefresh(chatId): set the refresh interval
handle unless one is already present (idempotent start). -/
def startCredentialRefresh (c : Chat) : Chat :=
  if c.refreshInterval then c else { c with refreshInterval := true }

/-- The read loop of listen: append each chunk to the buffer and run
processBuffer, dispatching the decoded frames; none propagates a
non-terminating processBuffer run.  When the chunks are exhausted the
next read resolves with done and listen throws 'Stream closed by
server.' (the only other exit, the liveness break, needs a concurrent
stop and cannot occur in this sequential embedding). -/
def runStream (jsonParse : List Char → Option JVal) (c : Chat) :
    List (List Char) → List Char → Option (Chat × List Event)
  | [], _ => some (c, [])
  | ch :: rest, buf =>
    match processBuffer (buf ++ ch) with
    | none => none
    | some (fs, buf2) =>
      let r1 := dispatchFrames jsonParse c fs
      match runStream jsonParse r1.1 rest buf2 with
      | none => none
      | some (c2, evs2) => some (c2, r1.2 ++ evs2)

/-- Step 3, private listen(chatId): throw when SID or gsessionid is
missing; increment AID (chatData.AID++ before the fetch); throw when the
stream request fails; start the credential refresher; then run the read
loop.  Outer none models a hung read loop (framer divergence).  In this
sequential embedding the loop always ends with the server closing the
stream, i.e. with a throw — the normal return needs the chat to have
been removed concurrently. -/
def listen (jsonParse : List Char → Option JVal) (c : Chat) (env : ConnectEnv) :
    Option (Chat × List Event × Option String) :=
  if jsFalsy c.SID || c.gsessionid.isEmpty then
    some (c, [], some "SID or gsessionid not found for listen")
  else
    let c1 := { c with AID := jsIncr c.AID }
    if !env.listenOpenOk then some (c1, [], some "Listen request failed")
    else
      let c2 := startCredentialRefresh c1
      match runStream jsonParse c2 env.chunks [] with
      | none => none
      | some (c3, evs) => some (c3, evs, some "Stream closed by server.")

/-- private connect(chatId): abort silently when the chat is absent or
stopped; run chooseServer, getSID, listen in order inside the try; a
throw anywhere routes to handleConnectionError with the chat's mutations
up to the throw already in the registry; only a normal return of listen
reaches the reconnectAttempts = 0 reset.  Result: registry, emitted
events, and the scheduled retry wait (none when no retry was scheduled);
outer none models a hung read loop. -/
def connect (cfg : Config) (reg : Registry) (id : String) (env : ConnectEnv) :
    Option (Registry × List Event × Option Nat) :=
  match reg id with
  | none => some (reg, [], none)
  | some c =>
    if !c.running then some (reg, [], none)
    else
      let r1 := chooseServer c env
      match r1.2.2 with
      | some e =>
        let h := handleConnectionError cfg (updateReg reg id r1.1) id e
        some (h.1, r1.2.1 ++ h.2.1, h.2.2)
      | none =>
        let r2 := getSID env.jsonParse r1.1 env.getSIDRespOk env.getSIDText
        match r2.2.2 with
        | some e =>
          let h := handleConnectionError cfg (updateReg reg id r2.1) id e
          some (h.1, r1.2.1 ++ r2.2.1 ++ h.2.1, h.2.2)
        | none =>
          match listen env.jsonParse r2.1 env with
          | none => none
          | some (c3, evs3, err3) =>
            match err3 with
            | some e =>
              let h := handleConnectionError cfg (updateReg reg id c3) id e
              some (h.1, r1.2.1 ++ r2.2.1 ++ evs3 ++ h.2.1, h.2.2)
            | none =>
              some (updateReg reg id { c3 with reconnectAttempts := 0 },
                    r1.2.1 ++ r2.2.1 ++ evs3, none)

/-! ## Derived classification predicates and concrete test inputs -/

/-- The condition under which handleMessage takes the session-established
branch: the frame parses, parsedMessage[0][0] is readable, equals the
number 1, and a string sits at parsedMessage[0][1][0][2][0]. -/
def sessionEstablishedFrame (parsed : Option JVal) : Bool :=
  match parsed with
  | none => false
  | some pm =>
    match jsIndexE (some pm) 0 with
    | .error _ => false
    | .ok e0 =>
      match jsIndexE e0 0 with
      | .error _ => false
      | .ok seq => seqIsOne seq && isStringV (jsChain (credsPath e0) 0)

def isConnectedEv : Event → Bool
  | .connected _ => true
  | _ => false

def hasPingEv (evs : List Event) : Bool :=
  evs.any fun e =>
    match e with
    | .ping _ _ => true
    | _ => false

/-- Default reconnect configuration of the source (5 attempts, 1000 ms
initial delay, 30000 ms cap). -/
def cfgDefault : Config :=
  { maxReconnectAttempts := 5, initialReconnectDelayMs := 1000, maxReconnectWaitMs := 30000 }

/-- A chat that has accumulated three failed reconnect attempts, about to
run a connect cycle. -/
def bugChat : Chat :=
  { chatId := "ch", running := true, gsessionid := [], nextRid := 42,
    SID := some (.str []), AID := some (.num 0), credsToken := [],
    reconnectAttempts := 3, refreshInterval := false }

/-- A well-shaped getSID line-1 value: [[0, [command, sid, gsessionid,
version, aid, timeoutMs]]]. -/
def goodSidVal : JVal :=
  .arr [.arr [.num 0,
    .arr [.str "c".toList, .str "S".toList, .str "G".toList, .num 8, .num 7, .num 30000]]]

/-- A concrete JSON.parse oracle for the handshake texts used in the
concrete runs.  BAD models a line that fails to parse. -/
def handshakeOracle : List Char → Option JVal :=
  fun s => if s = "L1".toList then some goodSidVal else none

/-- An environment in which the whole connect cycle succeeds (handshake
completes and the stream opens) and the server then closes the stream
without sending a frame. -/
def bugEnv : ConnectEnv :=
  { chooseServerOk := true, gsessionidResp := "G".toList, getSIDRespOk := true,
    getSIDText := "7\nL1".toList, listenOpenOk := true, chunks := [],
    jsonParse := handshakeOracle }

/-- A frame that is simultaneously session-established shaped (sequence
1 with a credentials token string) and keep-alive shaped (its ping
payload is [null, null, "1234"]). -/
def bothShapesFrame : JVal :=
  .arr [.arr [.num 1,
    .arr [.arr [.arr [.arr [.null, .arr [.null, .null, .str "1234".toList]]],
                .null,
                .arr [.str "tok".toList]]]]]

/-- A keep-alive shaped frame (sequence 2) whose discriminator string is
nonempty: payload [null, null, "99"]. -/
def pingFrame : JVal :=
  .arr [.arr [.num 2,
    .arr [.arr [.arr [.arr [.null, .arr [.null, .null, .str "99".toList]]]]]]]

/-- A near-miss frame: same shape but the discriminator string replaced
by the number 42. -/
def nearMissFrame : JVal :=
  .arr [.arr [.num 2,
    .arr [.arr [.arr [.arr [.null, .arr [.null, .null, .num 42]]]]]]]

/-- A near-miss frame whose discriminator is the empty string. -/
def emptyStrFrame : JVal :=
  .arr [.arr [.num 2,
    .arr [.arr [.arr [.arr [.null, .arr [.null, .null, .str []]]]]]]]

/-- A session-established frame with token "tok". -/
def establishedFrame : JVal :=
  .arr [.arr [.num 1, .arr [.arr [.null, .null, .arr [.str "tok".toList]]]]]

/-- A chat that has completed handshake step 1 (gsessionid assigned),
about to run getSID. -/
def chatC9 : Chat := { newChat "ch" 7 with gsessionid := "G".toList }

/-! # Theorems -/

/-- C5: for every attempt count the reconnect wait equals
min(initialDelay * 2^n, maxWait); with initialDelay 1000 and maxWait
30000 the waits for attempts 0..5 are 1000, 2000, 4000, 8000, 16000,
30000 (the uncapped value at attempt 5 would be 32000), a monotonically
non-decreasing sequence bounded by maxWait. -/
theorem claim5_backoff_formula :
    (∀ d w n : Nat, computeWait d w n = min (d * 2 ^ n) w)
    ∧ [0, 1, 2, 3, 4, 5].map (computeWait 1000 30000) =
        [1000, 2000, 4000, 8000, 16000, 30000]
    ∧ 1000 * 2 ^ 5 = 32000
    ∧ (∀ n m : Nat, n ≤ m → computeWait 1000 30000 n ≤ computeWait 1000 30000 m)
    ∧ ∀ n : Nat, computeWait 1000 30000 n ≤ 30000 := by
  refine ⟨fun d w n => rfl, by decide, by norm_num, fun n m h => ?_,
    fun n => min_le_right _ _⟩
  exact min_le_min (Nat.mul_le_mul_left _ (Nat.pow_le_pow_right (by norm_num) h)) le_rfl

/-- Witness for C5 at concrete attempt counts. -/
theorem claim5_witness :
    computeWait 1000 30000 2 ≤ computeWait 1000 30000 5 ∧
    computeWait 1000 30000 7 ≤ 30000 :=
  ⟨claim5_backoff_formula.2.2.2.1 2 5 (by norm_num), claim5_backoff_formula.2.2.2.2 7⟩

/-- C10: a correctly framed payload whose JSON parse fails leaves every
chat field unchanged and publishes no event, and dispatch of the
subsequent frames proceeds exactly as if the failing frame were absent. -/
theorem claim10_parse_failure (c : Chat) (L : Int)
    (jsonParse : List Char → Option JVal) (payload : List Char)
    (rest : List (List Char × Int)) (h : jsonParse payload = none) :
    handleMessage c (jsonParse payload) L = (c, []) ∧
    dispatchFrames jsonParse c ((payload, L) :: rest) = dispatchFrames jsonParse c rest := by
  constructor
  · rw [h]; rfl
  · simp [dispatchFrames, h, handleMessage]

/-- Witness for C10 with a parse oracle that rejects the payload. -/
theorem claim10_witness :
    handleMessage (newChat "ch" 0) ((fun _ => none) "[1".toList) 2 = (newChat "ch" 0, []) ∧
    dispatchFrames (fun _ => none) (newChat "ch" 0) [("[1".toList, 2)] =
      dispatchFrames (fun _ => none) (newChat "ch" 0) [] :=
  claim10_parse_failure (newChat "ch" 0) 2 (fun _ => none) "[1".toList [] rfl

/-- C7: join on a present id is a no-op (two joins create exactly one
session, with running true, the supplied random initial request id and
zeroed counters), and stop is idempotent: a second stop, or stop on an
absent id, produces no part event and no error. -/
theorem claim7_join_stop_idempotent (reg : Registry) (id : String) (r1 r2 : Nat) :
    (reg id = none →
      join reg id r1 = (updateReg reg id (newChat id r1), true) ∧
      (join reg id r1).1 id = some (newChat id r1) ∧
      (newChat id r1).running = true ∧ (newChat id r1).nextRid = r1 ∧
      (newChat id r1).AID = some (.num 0) ∧ (newChat id r1).reconnectAttempts = 0 ∧
      (newChat id r1).credsToken = [])
    ∧ join (join reg id r1).1 id r2 = ((join reg id r1).1, false)
    ∧ (reg id = none → stop reg id = (reg, []))
    ∧ stop (stop reg id).1 id = ((stop reg id).1, []) := by
  cases h : reg id with
  | none =>
    refine ⟨fun _ => ⟨by simp [join, h], by simp [join, h, updateReg], rfl, rfl, rfl, rfl, rfl⟩,
      ?_, fun _ => by simp [stop, h], ?_⟩
    · simp [join, h, updateReg]
    · simp [stop, h]
  | some c =>
    refine ⟨fun hn => by simp [h] at hn, ?_, fun hn => by simp [h] at hn, ?_⟩
    · simp [join, h]
    · simp [stop, h, eraseReg]

/-- Witness for C7 on the empty registry. -/
theorem claim7_witness :
    (join emptyReg "a" 5).1 "a" = some (newChat "a" 5) ∧
    join (join emptyReg "a" 5).1 "a" 7 = ((join emptyReg "a" 5).1, false) ∧
    stop (stop emptyReg "a").1 "a" = ((stop emptyReg "a").1, []) :=
  ⟨((claim7_join_stop_idempotent emptyReg "a" 5 7).1 rfl).2.1,
   (claim7_join_stop_idempotent emptyReg "a" 5 7).2.1,
   (claim7_join_stop_idempotent emptyReg "a" 5 7).2.2.2⟩

/-- C6: with the chat present and running, a connection failure either
gives up — when the configured maximum is positive and the attempt count
has reached it — publishing a second, fatal connectionError and stopping
the session (part event, removal, nothing scheduled), or otherwise
increments the attempt counter, publishes reconnecting with the new
count and the computed wait, and schedules a retry after that wait; a
non-positive configured maximum always takes the retry branch. -/
theorem claim6_policy (cfg : Config) (reg : Registry) (id : String) (err : String) (c : Chat)
    (hfind : reg id = some c) (hrun : c.running = true) :
    (0 < cfg.maxReconnectAttempts → cfg.maxReconnectAttempts ≤ (c.reconnectAttempts : Int) →
      handleConnectionError cfg reg id err =
        (eraseReg reg id,
         [Event.connectionError err, Event.connectionError maxAttemptsMsg,
          Event.part { c with running := false }], none))
    ∧ ((cfg.maxReconnectAttempts ≤ 0 ∨ (c.reconnectAttempts : Int) < cfg.maxReconnectAttempts) →
      handleConnectionError cfg reg id err =
        (updateReg reg id { c with reconnectAttempts := c.reconnectAttempts + 1 },
         [Event.connectionError err,
          Event.reconnecting (c.reconnectAttempts + 1)
            (computeWait cfg.initialReconnectDelayMs cfg.maxReconnectWaitMs c.reconnectAttempts)],
         some (computeWait cfg.initialReconnectDelayMs cfg.maxReconnectWaitMs c.reconnectAttempts))) := by
  constructor
  · intro h1 h2
    simp only [handleConnectionError, hfind, hrun, Bool.not_true]
    rw [if_neg (by simp), if_pos ⟨h1, h2⟩]
    simp [stop, hfind]
  · intro h
    have hneg : ¬(0 < cfg.maxReconnectAttempts ∧
        cfg.maxReconnectAttempts ≤ (c.reconnectAttempts : Int)) := by
      rcases h with h | h
      · exact fun hc => absurd hc.1 (not_lt.mpr h)
      · exact fun hc => absurd hc.2 (not_le.mpr h)
    simp only [handleConnectionError, hfind, hrun, Bool.not_true]
    rw [if_neg (by simp), if_neg hneg]

/-- Witness for C6: the give-up branch at 5 prior attempts against the
default maximum of 5, and the retry branch on a fresh chat. -/
theorem claim6_witness :
    handleConnectionError cfgDefault
        (updateReg emptyReg "a" { newChat "a" 1 with reconnectAttempts := 5 }) "a" "e" =
      (eraseReg (updateReg emptyReg "a" { newChat "a" 1 with reconnectAttempts := 5 }) "a",
       [Event.connectionError "e", Event.connectionError maxAttemptsMsg,
        Event.part { newChat "a" 1 with reconnectAttempts := 5, running := false }], none)
    ∧ handleConnectionError cfgDefault (updateReg emptyReg "b" (newChat "b" 1)) "b" "e" =
      (updateReg (updateReg emptyReg "b" (newChat "b" 1)) "b"
         { newChat "b" 1 with reconnectAttempts := 1 },
       [Event.connectionError "e", Event.reconnecting 1 1000], some 1000) := by
  constructor
  · have h := (claim6_policy cfgDefault
      (updateReg emptyReg "a" { newChat "a" 1 with reconnectAttempts := 5 }) "a" "e"
      { newChat "a" 1 with reconnectAttempts := 5 } (by simp [updateReg]) rfl).1
      (by norm_num [cfgDefault]) (by norm_num [cfgDefault, newChat])
    simpa using h
  · have h := (claim6_policy cfgDefault (updateReg emptyReg "b" (newChat "b" 1)) "b" "e"
      (newChat "b" 1) (by simp [updateReg]) rfl).2
      (Or.inr (by norm_num [cfgDefault, newChat]))
    simpa [computeWait, newChat] using h

/-- C3 (code bug): the reconnect counter is not reset by a successful
connect.  In a cycle where the handshake completes and the stream opens
(then the server closes it), a chat with 3 prior attempts yields a
reconnecting event computed from attempts = 3 (new count 4, wait 8000),
not from attempts = 0 (which the claim requires: new count 1, wait
1000).  The source's reset line runs only after listen returns normally,
which needs the chat to have been removed from the registry first. -/
theorem claim3_attempts_not_reset :
    (connect cfgDefault (updateReg emptyReg "ch" bugChat) "ch" bugEnv).map (fun r => r.2) =
      some ([Event.gsessionIdObtained "G".toList,
             Event.sidObtained (some 7) (some (.num 0)) (some (.str "S".toList))
               (some (.num 30000)) (some (.num 7)) (some (.str "c".toList))
               (some (.str "G".toList)) (some (.num 8)),
             Event.connectionError "Stream closed by server.",
             Event.reconnecting 4 8000], some 8000)
    ∧ (connect cfgDefault (updateReg emptyReg "ch" bugChat) "ch" bugEnv).map
        (fun r => (r.1 "ch").map Chat.reconnectAttempts) = some (some 4)
    ∧ bugChat.reconnectAttempts = 3
    ∧ computeWait 1000 30000 3 = 8000
    ∧ computeWait 1000 30000 0 = 1000 :=
  ⟨rfl, rfl, rfl, by decide, by decide⟩

/-! ## C2: malformed length prefix -/

theorem firstBracketIdx_drop (b : List Char) (j : Nat) (h : firstBracketIdx b = some j) :
    ∃ t, b.drop j = '[' :: t := by
  induction b generalizing j with
  | nil => simp [firstBracketIdx] at h
  | cons c t ih =>
    by_cases hc : c = '['
    · subst hc
      simp [firstBracketIdx] at h
      subst h
      exact ⟨t, rfl⟩
    · simp [firstBracketIdx, hc] at h
      obtain ⟨j2, hj2, hj⟩ := h
      obtain ⟨t2, ht2⟩ := ih j2 hj2
      exact ⟨t2, by rw [← hj]; simpa using ht2⟩

theorem processBuffer_badPrefix (b : List Char) (j : Nat)
    (h1 : firstBracketIdx b = some j) (h2 : parseIntJS (b.take j) = none) :
    processBuffer b = some ([], b.drop j) := by
  simp only [processBuffer, processBufferF, h1, h2]

/-- C2 as amended: when the text before the first '[' fails parseInt,
processBuffer reports, discards everything before — but not including —
that '[', and returns without scanning the rest of that buffer; because
the retained '[' makes every later length prefix empty, each subsequent
buffer starting with it is returned unchanged as well, so a later
well-formed frame in the same buffer is never decoded. -/
theorem claim2_amended (b : List Char) (j : Nat)
    (h1 : firstBracketIdx b = some j) (h2 : parseIntJS (b.take j) = none) :
    processBuffer b = some ([], b.drop j) ∧
    ∀ extra : List Char, processBuffer (b.drop j ++ extra) = some ([], b.drop j ++ extra) := by
  refine ⟨processBuffer_badPrefix b j h1 h2, fun extra => ?_⟩
  obtain ⟨t, ht⟩ := firstBracketIdx_drop b j h1
  rw [ht, List.cons_append]
  have := processBuffer_badPrefix ('[' :: (t ++ extra)) 0 (by simp [firstBracketIdx]) (by simp [parseIntJS])
  simpa using this

/-- Counterexample to C2 as stated: on the buffer zz[5[1,2] the framer
dispatches nothing and returns [5[1,2] (the '[' retained); the claim
predicts that the later well-formed frame [1,2] is still decoded, as the
third conjunct shows it would be had the prefix been discarded through
the '['. -/
theorem claim2_counterexample :
    processBuffer "zz[5[1,2]".toList = some ([], "[5[1,2]".toList) ∧
    (processBuffer "zz[5[1,2]".toList).map (fun r => r.1.map Prod.fst) ≠
      some ["[1,2]".toList] ∧
    processBuffer "5[1,2]".toList = some ([("[1,2]".toList, 5)], []) :=
  ⟨by decide, by decide, by decide⟩

/-- Witness for the amended C2. -/
theorem claim2_witness :
    processBuffer "ab[7[1,2,3]".toList = some ([], "[7[1,2,3]".toList) ∧
    processBuffer ("[7[1,2,3]".toList ++ "x".toList) =
      some ([], "[7[1,2,3]".toList ++ "x".toList) := by
  have h := claim2_amended "ab[7[1,2,3]".toList 2 (by decide) (by decide)
  exact ⟨by rw [h.1]; decide, h.2 "x".toList⟩

/-! ## C4 / C8: frame classification -/

theorem isNullV_iff (v : JSVal) : isNullV v = true ↔ v = some .null := by
  cases v with
  | none => simp [isNullV]
  | some x => cases x <;> simp [isNullV]

theorem isStringV_iff (v : JSVal) : isStringV v = true ↔ ∃ s, v = some (.str s) := by
  cases v with
  | none => simp [isStringV]
  | some x => cases x <;> simp [isStringV]

theorem jsChain_indexE (v : JSVal) (i : Nat) (h : jsChain v i ≠ none) :
    jsIndexE v i = .ok (jsChain v i) := by
  cases v with
  | none => simp [jsChain] at h
  | some x => cases x <;> simp_all [jsChain, jsIndexE]

/-- Per-frame count of connected events emitted by handleMessage. -/
theorem handleMessage_connected_count (c : Chat) (parsed : Option JVal) (L : Int) :
    ((handleMessage c parsed L).2.filter isConnectedEv).length =
      if sessionEstablishedFrame parsed then 1 else 0 := by
  cases parsed with
  | none => simp [handleMessage, sessionEstablishedFrame]
  | some pm =>
    cases hE : jsIndexE (some pm) 0 with
    | error e => simp [handleMessage, sessionEstablishedFrame, hE]
    | ok e0 =>
      cases hF : jsIndexE e0 0 with
      | error e => simp [handleMessage, sessionEstablishedFrame, hE, hF]
      | ok seq =>
        simp only [handleMessage, sessionEstablishedFrame, hE, hF]
        by_cases hs : seqIsOne seq = true
        · simp only [hs, if_true, Bool.true_and]
          cases hc : jsChain (credsPath e0) 0 with
          | none =>
            simp only [hc, isStringV]
            by_cases hp : isPingEvent e0 = true
            · simp only [hp, if_true]
              cases hpt : pingTms e0 with
              | error e => simp [hpt, isConnectedEv]
              | ok tms => simp [hpt, isConnectedEv]
            · simp [hp, isConnectedEv]
          | some v =>
            cases v <;> simp only [hc, isStringV] <;>
              (by_cases hp : isPingEvent e0 = true
               · simp only [hp, if_true]
                 cases hpt : pingTms e0 with
                 | error e => simp [hpt, isConnectedEv]
                 | ok tms => simp [hpt, isConnectedEv]
               · simp [hp, isConnectedEv])
        · have hs2 : seqIsOne seq = false := by
            cases hq : seqIsOne seq
            · rfl
            · exact absurd hq hs
          simp only [hs2, Bool.false_and, Bool.false_eq_true, if_false]
          by_cases hp : isPingEvent e0 = true
          · simp only [hp, if_true]
            cases hpt : pingTms e0 with
            | error e => simp [hpt, isConnectedEv]
            | ok tms => simp [hpt, isConnectedEv]
          · simp [hp, isConnectedEv]

/-- C4: a frame with sequence 1 and a string at
parsedMessage[0][1][0][2][0] stores that string in credsToken and
publishes exactly one connected event carrying the updated session
snapshot; over any dispatched frame list the number of connected events
equals the number of session-established frames, so it happens exactly
once per connection stream containing one such frame. -/
theorem claim4_session_established (c : Chat) (pm : JVal) (L : Int) (e0 : JSVal) (s : List Char)
    (he0 : jsIndexE (some pm) 0 = .ok e0)
    (hseq : jsIndexE e0 0 = .ok (some (.num 1)))
    (hcreds : jsChain (credsPath e0) 0 = some (.str s)) :
    handleMessage c (some pm) L =
      ({ c with AID := some (.num 1), credsToken := s },
       [Event.connected { c with AID := some (.num 1), credsToken := s }])
    ∧ ∀ (jsonParse : List Char → Option JVal) (c0 : Chat) (frames : List (List Char × Int)),
        ((dispatchFrames jsonParse c0 frames).2.filter isConnectedEv).length =
          (frames.filter fun f => sessionEstablishedFrame (jsonParse f.1)).length := by
  constructor
  · simp only [handleMessage, he0, hseq]
    simp [seqIsOne, hcreds]
  · intro jp c0 frames
    induction frames generalizing c0 with
    | nil => simp [dispatchFrames]
    | cons f rest ih =>
      simp only [dispatchFrames, List.filter_append, List.length_append, List.filter_cons]
      rw [handleMessage_connected_count]
      by_cases hf : sessionEstablishedFrame (jp f.1) = true
      · simp [hf, ih]
        omega
      · have hf2 : sessionEstablishedFrame (jp f.1) = false := by
          cases hq : sessionEstablishedFrame (jp f.1)
          · rfl
          · exact absurd hq hf
        simp [hf2, ih]

/-- Witness for C4 on a concrete session-established frame. -/
theorem claim4_witness :
    handleMessage (newChat "w4" 0) (some establishedFrame) 9 =
      ({ newChat "w4" 0 with AID := some (.num 1), credsToken := "tok".toList },
       [Event.connected { newChat "w4" 0 with AID := some (.num 1), credsToken := "tok".toList }]) ∧
    ((dispatchFrames (fun _ => some establishedFrame) (newChat "w4" 0) [([], 9)]).2.filter
        isConnectedEv).length =
      ([(([] : List Char), (9 : Int))].filter fun f =>
        sessionEstablishedFrame ((fun _ => some establishedFrame) f.1)).length := by
  have h := claim4_session_established (newChat "w4" 0) establishedFrame 9 _ "tok".toList rfl rfl rfl
  exact ⟨h.1, h.2 (fun _ => some establishedFrame) (newChat "w4" 0) [([], 9)]⟩

theorem isPingEvent_elim (e0 : JSVal) (h : isPingEvent e0 = true) :
    ∃ xs : List JVal, pingPayload e0 = some (.arr xs) ∧
      xs.get? 0 = some .null ∧ xs.get? 1 = some .null ∧
      ∃ s, jsChain (xs.get? 2) 0 = some (.str s) := by
  unfold isPingEvent at h
  cases hp : pingPayload e0 with
  | none => rw [hp] at h; simp at h
  | some x =>
    cases x <;> rw [hp] at h <;> try simp at h
    case arr xs =>
      have h2 := h
      simp only [Bool.and_eq_true] at h2
      obtain ⟨⟨hn0, hn1⟩, hstr⟩ := h2
      refine ⟨xs, rfl, (isNullV_iff _).mp (by simpa using hn0),
        (isNullV_iff _).mp (by simpa using hn1), ?_⟩
      obtain ⟨s, hs⟩ := (isStringV_iff _).mp (by simpa using hstr)
      exact ⟨s, by simpa using hs⟩

/-- When a frame passes isPingEvent, the plain-indexed timestamp
extraction of the ping emit cannot throw and produces the string at
payload[2][0]. -/
theorem isPingEvent_pingTms (e0 : JSVal) (h : isPingEvent e0 = true) :
    ∃ s, pingTms e0 = .ok (some (.str s)) := by
  obtain ⟨xs, hp, h0, h1, s, hs⟩ := isPingEvent_elim e0 h
  unfold pingPayload at hp
  have hv4 : jsChain (jsChain (jsChain (jsChain e0 1) 0) 0) 0 ≠ none := by
    intro hh; rw [hh] at hp; simp [jsChain] at hp
  have hv3 : jsChain (jsChain (jsChain e0 1) 0) 0 ≠ none := by
    intro hh; rw [hh] at hv4; simp [jsChain] at hv4
  have hv2 : jsChain (jsChain e0 1) 0 ≠ none := by
    intro hh; rw [hh] at hv3; simp [jsChain] at hv3
  have hv1 : jsChain e0 1 ≠ none := by
    intro hh; rw [hh] at hv2; simp [jsChain] at hv2
  have hs' : jsChain (xs.get? 2) 0 ≠ none := by rw [hs]; simp
  refine ⟨s, ?_⟩
  simp only [pingTms, jsChain_indexE e0 1 hv1, jsChain_indexE (jsChain e0 1) 0 hv2,
    jsChain_indexE (jsChain (jsChain e0 1) 0) 0 hv3,
    jsChain_indexE (jsChain (jsChain (jsChain e0 1) 0) 0) 0 hv4,
    jsChain_indexE (jsChain (jsChain (jsChain (jsChain e0 1) 0) 0) 0) 1 (by rw [hp]; simp),
    hp]
  have hx2 : jsIndexE (some (JVal.arr xs)) 2 = .ok (xs.get? 2) := rfl
  simp only [hx2]
  rw [jsChain_indexE (xs.get? 2) 0 hs', hs]

/-- C8 as amended: among frames that are not classified
session-established, a frame passing the keep-alive discriminator is
classified ping (one ping event, no data event), and a frame failing it
is classified generic data; the discriminator holds for a payload of
shape [null, null, s, ...] with s a nonempty string and fails when the
string is replaced by a number. -/
theorem claim8_amended (c : Chat) (pm : JVal) (L : Int) (e0 seq : JSVal)
    (he0 : jsIndexE (some pm) 0 = .ok e0)
    (hseq : jsIndexE e0 0 = .ok seq)
    (hnotest : seqIsOne seq = false ∨ isStringV (jsChain (credsPath e0) 0) = false) :
    (isPingEvent e0 = true →
      ∃ tms, pingTms e0 = .ok tms ∧
        handleMessage c (some pm) L =
          ({ c with AID := seq }, [Event.ping tms { c with AID := seq }]))
    ∧ (isPingEvent e0 = false →
      handleMessage c (some pm) L =
        ({ c with AID := seq }, [Event.data L seq pm { c with AID := seq }]))
    ∧ (∀ xs : List JVal, pingPayload e0 = some (.arr xs) →
        xs.get? 0 = some .null → xs.get? 1 = some .null →
        ((∀ ch : Char, ∀ s : List Char, xs.get? 2 = some (.str (ch :: s)) →
            isPingEvent e0 = true)
         ∧ (∀ k : Int, xs.get? 2 = some (.num k) → isPingEvent e0 = false))) := by
  refine ⟨?_, ?_, ?_⟩
  · intro hping
    obtain ⟨s0, htms⟩ := isPingEvent_pingTms e0 hping
    refine ⟨some (.str s0), htms, ?_⟩
    simp only [handleMessage, he0, hseq]
    rcases hnotest with hn | hn
    · simp [hn, hping, htms]
    · cases hc : jsChain (credsPath e0) 0 with
      | none => simp [hc, hping, htms]
      | some v => cases v <;> simp_all [isStringV, hping, htms]
  · intro hping
    simp only [handleMessage, he0, hseq]
    rcases hnotest with hn | hn
    · simp [hn, hping]
    · cases hc : jsChain (credsPath e0) 0 with
      | none => simp [hc, hping]
      | some v => cases v <;> simp_all [isStringV, hping]
  · intro xs hp h0 h1
    constructor
    · intro ch s h2
      simp only [isPingEvent, hp]
      simp only [h0, h1, h2]
      simp [isNullV, jsChain, jsElem, isStringV]
    · intro k h2
      simp only [isPingEvent, hp]
      simp only [h2]
      simp [jsChain, jsElem, isStringV]

/-- Counterexample to C8 as stated: bothShapesFrame matches the
keep-alive discriminator yet is classified connected (session
established wins), not ping; and emptyStrFrame, whose payload is
[null, null, ""], is classified generic data, not ping. -/
theorem claim8_counterexample :
    isPingEvent (jsElem bothShapesFrame 0) = true ∧
    hasPingEv (handleMessage (newChat "c8" 0) (some bothShapesFrame) 7).2 = false ∧
    (handleMessage (newChat "c8" 0) (some bothShapesFrame) 7).2 =
      [Event.connected { newChat "c8" 0 with AID := some (.num 1), credsToken := "tok".toList }] ∧
    pingPayload (jsElem emptyStrFrame 0) = some (.arr [.null, .null, .str []]) ∧
    isPingEvent (jsElem emptyStrFrame 0) = false ∧
    hasPingEv (handleMessage (newChat "c8" 0) (some emptyStrFrame) 7).2 = false :=
  ⟨rfl, rfl, rfl, rfl, rfl, rfl⟩

/-- Witness for the amended C8 at concrete ping and near-miss frames. -/
theorem claim8_witness :
    handleMessage (newChat "c8w" 0) (some pingFrame) 7 =
      ({ newChat "c8w" 0 with AID := some (.num 2) },
       [Event.ping (some (.str ['9'])) { newChat "c8w" 0 with AID := some (.num 2) }]) ∧
    handleMessage (newChat "c8w" 0) (some nearMissFrame) 7 =
      ({ newChat "c8w" 0 with AID := some (.num 2) },
       [Event.data 7 (some (.num 2)) nearMissFrame
          { newChat "c8w" 0 with AID := some (.num 2) }]) := by
  have h1 := (claim8_amended (newChat "c8w" 0) pingFrame 7 _ _ rfl rfl (Or.inl rfl)).1 rfl
  have h2 := (claim8_amended (newChat "c8w" 0) nearMissFrame 7 _ _ rfl rfl (Or.inl rfl)).2.1 rfl
  obtain ⟨tms, htms, heq⟩ := h1
  have hrt : (Except.ok (some (JVal.str ['9'])) : Except Unit JSVal) = Except.ok tms := by
    rw [← htms]
    rfl
  cases hrt
  exact ⟨heq, h2⟩

/-! ## C9: getSID failure conditions -/

/-- C9 as amended: with gsessionid present and — whenever the response
is HTTP-successful with at least two lines — a second line that decodes
to the documented [[cursor, tuple]] shape with a string sid at tuple
index 1, getSID fails exactly when the HTTP response is non-success, or
the text has fewer than two newline-delimited lines, or the sid is
empty; on success sid populates the session, the acknowledgment number
is carried only on the published sid event, and the session's AID field
is unchanged.  (An undecodable or mis-shaped second line also fails,
outside this shape hypothesis; see the counterexample.) -/
theorem claim9_amended (jsonParse : List Char → Option JVal) (c : Chat) (respOk : Bool)
    (text : List Char) (i : JVal) (tupElems rest0 : List JVal) (s : List Char)
    (hg : c.gsessionid.isEmpty = false)
    (hshape : respOk = true → 2 ≤ (splitNl text).length →
      jsonParse ((splitNl text).getD 1 []) =
          some (.arr (.arr [i, .arr tupElems] :: rest0)) ∧
        tupElems.get? 1 = some (.str s)) :
    ((getSID jsonParse c respOk text).2.2 ≠ none ↔
      (respOk = false ∨ (splitNl text).length < 2 ∨ s = []))
    ∧ ((getSID jsonParse c respOk text).2.2 = none →
        (getSID jsonParse c respOk text).1 =
          { c with nextRid := c.nextRid + 1, SID := some (.str s) } ∧
        (getSID jsonParse c respOk text).2.1 =
          [Event.sidObtained (jsToNumber ((splitNl text).getD 0 []))
            (some i) (some (.str s)) (tupElems.get? 5) (tupElems.get? 4)
            (tupElems.get? 0) (tupElems.get? 2) (tupElems.get? 3)] ∧
        (getSID jsonParse c respOk text).1.AID = c.AID) := by
  cases respOk with
  | false =>
    simp only [getSID, hg, Bool.false_eq_true, if_false, Bool.not_false, if_true]
    simp
  | true =>
    by_cases hlen : (splitNl text).length < 2
    · simp only [getSID, hg, Bool.false_eq_true, if_false, Bool.not_true, hlen, if_true]
      simp [hlen]
    · obtain ⟨hparse, hsid⟩ := hshape rfl (not_lt.mp hlen)
      have hidx1 : jsIndexE (some (JVal.arr (JVal.arr [i, JVal.arr tupElems] :: rest0))) 0 =
          .ok (some (JVal.arr [i, JVal.arr tupElems])) := rfl
      have hidx2 : jsIndexE (some (JVal.arr [i, JVal.arr tupElems])) 1 =
          .ok (some (JVal.arr tupElems)) := rfl
      have hidx3 : jsIndexE (some (JVal.arr tupElems)) 1 = .ok (tupElems.get? 1) := rfl
      simp only [getSID, hg, Bool.false_eq_true, if_false, Bool.not_true, hlen, if_true,
        hparse, hidx1, hidx2, hidx3, hsid]
      by_cases hes : s = []
      · subst hes
        simp [jsFalsy]
      · have hne : (List.isEmpty s) = false := by
          cases s with
          | nil => exact absurd rfl hes
          | cons a t => rfl
        simp only [jsFalsy, hne, Bool.false_eq_true, if_false]
        refine ⟨by simp [hes, hlen], fun _ => by refine ⟨?_, ?_, ?_⟩ <;> first | rfl | trivial⟩

/-- Counterexample to C9 as stated: first, a successful getSID stores
sid in the session but leaves AID untouched — the acknowledgment number
7 of the response goes only into the published sid event, so it does not
populate the session; second, the failure condition is not exactly the
claimed three cases: on the two-line response 7\nBAD (HTTP-successful,
two lines, no extractable sid at all) getSID still fails with a parse
error. -/
theorem claim9_counterexample :
    getSID handshakeOracle chatC9 true "7\nL1".toList =
      ({ chatC9 with nextRid := chatC9.nextRid + 1, SID := some (.str "S".toList) },
       [Event.sidObtained (some 7) (some (.num 0)) (some (.str "S".toList))
          (some (.num 30000)) (some (.num 7)) (some (.str "c".toList))
          (some (.str "G".toList)) (some (.num 8))], none)
    ∧ (getSID handshakeOracle chatC9 true "7\nL1".toList).1.AID = some (.num 0)
    ∧ jsToNumber ((splitNl "7\nL1".toList).getD 0 []) = some 7
    ∧ (some (JVal.num 0) : JSVal) ≠ some (.num 7)
    ∧ (getSID handshakeOracle chatC9 true "7\nBAD".toList).2.2 = some "SyntaxError"
    ∧ (splitNl "7\nBAD".toList).length = 2 := by
  refine ⟨rfl, rfl, rfl, ?_, rfl, rfl⟩
  intro h
  simp at h

/-- Witness for the amended C9 at a concrete well-shaped response. -/
theorem claim9_witness :
    (getSID handshakeOracle chatC9 true "7\nL1".toList).1 =
      { chatC9 with nextRid := chatC9.nextRid + 1, SID := some (.str "S".toList) } ∧
    (getSID handshakeOracle chatC9 true "7\nL1".toList).1.AID = chatC9.AID := by
  have h := (claim9_amended handshakeOracle chatC9 true "7\nL1".toList (.num 0)
    [.str "c".toList, .str "S".toList, .str "G".toList, .num 8, .num 7, .num 30000] []
    "S".toList rfl (fun _ _ => ⟨rfl, rfl⟩)).2 rfl
  exact ⟨h.1, h.2.2⟩

/-! ## C1: chunk independence of the framer

Foundation: the decimal encoder round-trips through parseIntJS. -/

theorem digitCh_spec (n : Nat) (h : n < 10) :
    isDigitCh (digitCh n) = true ∧ (digitCh n).toNat - 48 = n := by
  interval_cases n <;> exact ⟨by decide, by decide⟩

theorem digitsToNat_append (xs : List Char) (c : Char) :
    digitsToNat (xs ++ [c]) = 10 * digitsToNat xs + (c.toNat - 48) := by
  simp [digitsToNat, List.foldl_append]

theorem natDigitsAux_spec : ∀ (fuel n : Nat), n < fuel →
    natDigitsAux fuel n ≠ [] ∧ (∀ ch ∈ natDigitsAux fuel n, isDigitCh ch = true) ∧
      digitsToNat (natDigitsAux fuel n) = n := by
  intro fuel
  induction fuel with
  | zero => intro n h; omega
  | succ fuel ih =>
    intro n h
    by_cases hn : n < 10
    · simp only [natDigitsAux, hn, if_true]
      refine ⟨by simp, ?_, ?_⟩
      · intro ch hch
        simp at hch
        subst hch
        exact (digitCh_spec n hn).1
      · have := (digitCh_spec n hn).2
        simp [digitsToNat]
        omega
    · simp only [natDigitsAux, hn, if_false]
      have hrec := ih (n / 10) (by omega)
      refine ⟨by simp [hrec.1], ?_, ?_⟩
      · intro ch hch
        rcases List.mem_append.mp hch with hm | hm
        · exact hrec.2.1 ch hm
        · simp at hm
          subst hm
          exact (digitCh_spec (n % 10) (Nat.mod_lt n (by omega))).1
      · rw [digitsToNat_append, hrec.2.2, (digitCh_spec (n % 10) (Nat.mod_lt n (by omega))).2]
        omega

theorem natDigits_ne_nil (n : Nat) : natDigits n ≠ [] :=
  (natDigitsAux_spec (n + 1) n (Nat.lt_succ_self n)).1

theorem natDigits_digits (n : Nat) : ∀ ch ∈ natDigits n, isDigitCh ch = true :=
  (natDigitsAux_spec (n + 1) n (Nat.lt_succ_self n)).2.1

theorem digitsToNat_natDigits (n : Nat) : digitsToNat (natDigits n) = n :=
  (natDigitsAux_spec (n + 1) n (Nat.lt_succ_self n)).2.2

theorem digit_not_ws (c : Char) (h : isDigitCh c = true) : jsWhitespace c = false := by
  cases hw : jsWhitespace c
  · rfl
  · exfalso
    simp only [jsWhitespace, Bool.or_eq_true, beq_iff_eq] at hw
    rcases hw with ((h1 | h1) | h1) | h1 <;> subst h1 <;> exact absurd h (by decide)

theorem digit_ne_special (c : Char) (h : isDigitCh c = true) :
    c ≠ '[' ∧ c ≠ '-' ∧ c ≠ '+' := by
  refine ⟨?_, ?_, ?_⟩ <;> intro he <;> subst he <;> exact absurd h (by decide)

theorem takeWhile_all {p : Char → Bool} :
    ∀ l : List Char, (∀ x ∈ l, p x = true) → l.takeWhile p = l := by
  intro l h
  induction l with
  | nil => rfl
  | cons a t ih =>
    simp [List.takeWhile_cons, h a (by simp), ih (fun x hx => h x (by simp [hx]))]

theorem parseIntJS_digits (ds : List Char) (hne : ds ≠ [])
    (hd : ∀ ch ∈ ds, isDigitCh ch = true) :
    parseIntJS ds = some ((digitsToNat ds : Int)) := by
  cases ds with
  | nil => exact absurd rfl hne
  | cons c t =>
    have hc := hd c (by simp)
    have hspec := digit_ne_special c hc
    simp only [parseIntJS, List.dropWhile_cons, digit_not_ws c hc, Bool.false_eq_true, if_false,
      hspec.2.1, hspec.2.2]
    simp only [digitsVal, takeWhile_all (c :: t) hd, List.isEmpty_cons, Option.map_some]
    rfl

theorem parseIntJS_natDigits (n : Nat) :
    parseIntJS (natDigits n) = some ((n : Int)) := by
  rw [parseIntJS_digits (natDigits n) (natDigits_ne_nil n) (natDigits_digits n),
    digitsToNat_natDigits]

theorem firstBracketIdx_of_no_bracket :
    ∀ l : List Char, (∀ c ∈ l, c ≠ '[') → firstBracketIdx l = none := by
  intro l h
  induction l with
  | nil => rfl
  | cons a t ih =>
    simp only [firstBracketIdx, h a (by simp), if_false]
    rw [ih (fun c hc => h c (by simp [hc]))]
    rfl

theorem firstBracketIdx_append (pre r : List Char) (h : ∀ c ∈ pre, c ≠ '[') :
    firstBracketIdx (pre ++ '[' :: r) = some pre.length := by
  induction pre with
  | nil => simp [firstBracketIdx]
  | cons a t ih =>
    simp only [List.cons_append, firstBracketIdx, h a (by simp), if_false, List.append_eq]
    rw [ih (fun c hc => h c (by simp [hc]))]
    simp

theorem processBufferF_irrel : ∀ f1 f2 b, b.length < f1 → b.length < f2 →
    processBufferF f1 b = processBufferF f2 b := by
  intro f1
  induction f1 with
  | zero => intro f2 b h1 h2; omega
  | succ f1 ih =>
    intro f2 b h1 h2
    cases f2 with
    | zero => omega
    | succ f2 =>
      cases hfb : firstBracketIdx b with
      | none => simp only [processBufferF, hfb]
      | some j =>
        cases hpi : parseIntJS (b.take j) with
        | none => simp only [processBufferF, hfb, hpi]
        | some n =>
          simp only [processBufferF, hfb, hpi]
          by_cases hlt : (b.length : Int) < (j : Int) + n
          · simp only [hlt, if_true]
          · simp only [hlt, if_false]
            by_cases hle : (j : Int) + n ≤ 0
            · simp only [hle, if_true]
            · simp only [hle, if_false]
              have hcl : 1 ≤ clampIdx b.length ((j : Int) + n) ∧
                  clampIdx b.length ((j : Int) + n) ≤ b.length := by
                unfold clampIdx
                split_ifs <;> omega
              have hlen : (jsSubstringFrom b ((j : Int) + n)).length < b.length := by
                simp only [jsSubstringFrom, List.length_drop]
                omega
              rw [ih f2 (jsSubstringFrom b ((j : Int) + n)) (by omega) (by omega)]

theorem clampIdx_cast (len n : Nat) (h : n ≤ len) : clampIdx len ((n : Nat) : Int) = n := by
  unfold clampIdx
  split_ifs <;> omega

/-- The step equation of the framer: a complete leading frame is
dispatched and decoding continues on the remainder, whatever it is. -/
theorem processBuffer_cons (p rest : List Char) (hp : p.head? = some '[') :
    processBuffer (encodeFrame p ++ rest) =
      (processBuffer rest).map (fun pr => ((p, (p.length : Int)) :: pr.1, pr.2)) := by
  obtain ⟨t, hpt⟩ : ∃ t, p = '[' :: t := by
    cases p with
    | nil => simp at hp
    | cons a t => simp at hp; exact ⟨t, by rw [hp]⟩
  have hdd := natDigits_digits p.length
  have hb : encodeFrame p ++ rest = natDigits p.length ++ (p ++ rest) := by
    simp [encodeFrame]
  rw [hb]
  set d := natDigits p.length with hd
  set b := d ++ (p ++ rest) with hbdef
  have h1 : firstBracketIdx b = some d.length := by
    rw [hbdef, hpt, List.cons_append]
    exact firstBracketIdx_append d (t ++ rest)
      (fun c hc => ((digit_ne_special c (hdd c hc)).1))
  have htake : b.take d.length = d := List.take_left d (p ++ rest)
  have h2 : parseIntJS (b.take d.length) = some ((p.length : Int)) := by
    rw [htake, hd]
    exact parseIntJS_natDigits p.length
  have hblen : b.length = d.length + (p.length + rest.length) := by
    simp [hbdef]
  have hplen : 1 ≤ p.length := by rw [hpt]; simp
  show processBufferF (b.length + 1) b =
    (processBuffer rest).map (fun pr => ((p, (p.length : Int)) :: pr.1, pr.2))
  simp only [processBufferF, h1, h2]
  rw [if_neg (by omega), if_neg (by omega)]
  have hsub : jsSubstringFrom b ((d.length : Int) + (p.length : Int)) = rest := by
    have hcast : (d.length : Int) + (p.length : Int) = ((d.length + p.length : Nat) : Int) := by
      push_cast; ring
    rw [jsSubstringFrom, hcast, clampIdx_cast _ _ (by omega)]
    rw [hbdef, ← List.append_assoc]
    exact List.drop_left' (by simp)
  have hmsg : jsSubstring b ((d.length : Nat) : Int) ((d.length : Int) + (p.length : Int)) = p := by
    have hc1 : clampIdx b.length ((d.length : Nat) : Int) = d.length :=
      clampIdx_cast _ _ (by omega)
    have hcast : (d.length : Int) + (p.length : Int) = ((d.length + p.length : Nat) : Int) := by
      push_cast; ring
    have hc2 : clampIdx b.length ((d.length : Int) + (p.length : Int)) = d.length + p.length := by
      rw [hcast]; exact clampIdx_cast _ _ (by omega)
    rw [jsSubstring]
    simp only [hc1, hc2]
    rw [if_pos (by omega)]
    have htk : b.take (d.length + p.length) = d ++ p := by
      rw [hbdef, ← List.append_assoc]
      exact List.take_left' (by simp)
    rw [htk]
    exact List.drop_left d p
  rw [hsub, hmsg]
  have hrw : processBufferF b.length rest = processBuffer rest := by
    apply processBufferF_irrel
    · omega
    · omega
  rw [hrw]
  cases hrec : processBuffer rest with
  | none => rfl
  | some pr =>
    obtain ⟨fs, r⟩ := pr
    rfl

/-- An incomplete leading frame is left in the buffer untouched. -/
theorem processBuffer_short (p : List Char) (hp : p.head? = some '[') (k : Nat)
    (hk : k < (encodeFrame p).length) :
    processBuffer ((encodeFrame p).take k) = some ([], (encodeFrame p).take k) := by
  obtain ⟨t, hpt⟩ : ∃ t, p = '[' :: t := by
    cases p with
    | nil => simp at hp
    | cons a t => simp at hp; exact ⟨t, by rw [hp]⟩
  have hdd := natDigits_digits p.length
  set d := natDigits p.length with hd
  have hflen : (encodeFrame p).length = d.length + p.length := by simp [encodeFrame, hd]
  by_cases hksm : k ≤ d.length
  · have htk : (encodeFrame p).take k = d.take k := by
      rw [encodeFrame, ← hd, List.take_append_eq_append_take]
      rw [Nat.sub_eq_zero_of_le hksm]
      simp
    rw [htk]
    have hnone : firstBracketIdx (d.take k) = none := by
      apply firstBracketIdx_of_no_bracket
      intro c hc
      exact (digit_ne_special c (hdd c (List.take_subset k d hc))).1
    simp only [processBuffer, processBufferF, hnone]
  · have hkd : d.length < k := by omega
    obtain ⟨m, hm⟩ : ∃ m, k - d.length = m + 1 := ⟨k - d.length - 1, by omega⟩
    have htk : (encodeFrame p).take k = d ++ ('[' :: t.take m) := by
      rw [encodeFrame, ← hd, List.take_append_eq_append_take,
        List.take_of_length_le (by omega), hm, hpt, List.take_succ_cons]
    have h1 : firstBracketIdx ((encodeFrame p).take k) = some d.length := by
      rw [htk]
      exact firstBracketIdx_append d (t.take m)
        (fun c hc => ((digit_ne_special c (hdd c hc)).1))
    have h2 : parseIntJS (((encodeFrame p).take k).take d.length) = some ((p.length : Int)) := by
      rw [htk, List.take_left d ('[' :: t.take m), hd]
      exact parseIntJS_natDigits p.length
    have hlen : ((encodeFrame p).take k).length = k := by
      rw [List.length_take]
      omega
    simp only [processBuffer, processBufferF, h1, h2]
    rw [if_pos (by rw [hlen]; omega)]

theorem encodeStream_nil : encodeStream [] = [] := rfl

theorem encodeStream_cons (p : List Char) (ps : List (List Char)) :
    encodeStream (p :: ps) = encodeFrame p ++ encodeStream ps := by
  simp [encodeStream]

theorem encodeStream_append (a b : List (List Char)) :
    encodeStream (a ++ b) = encodeStream a ++ encodeStream b := by
  simp [encodeStream]

theorem encodeFrame_pos (p : List Char) : 0 < (encodeFrame p).length := by
  have := natDigits_ne_nil p.length
  simp only [encodeFrame, List.length_append]
  cases hd : natDigits p.length with
  | nil => exact absurd hd this
  | cons a t => simp

/-- Decoding an arbitrary prefix of an encoded stream: the frames fully
contained in the prefix are dispatched in order and the strictly partial
remainder of the next frame is retained. -/
theorem processBuffer_take :
    ∀ (ps : List (List Char)) (k : Nat),
      (∀ p ∈ ps, p.head? = some '[') → k ≤ (encodeStream ps).length →
      ∃ ps1 ps2 m, ps = ps1 ++ ps2 ∧ k = (encodeStream ps1).length + m ∧
        m ≤ (encodeStream ps2).length ∧
        (∀ q l, ps2 = q :: l → m < (encodeFrame q).length) ∧
        processBuffer ((encodeStream ps).take k) =
          some (ps1.map (fun p => (p, (p.length : Int))), (encodeStream ps2).take m) := by
  intro ps
  induction ps with
  | nil =>
    intro k hwf hk
    refine ⟨[], [], 0, rfl, ?_, by simp [encodeStream_nil], by simp, ?_⟩
    · simp only [encodeStream_nil, List.length_nil] at hk ⊢
      omega
    · simp only [encodeStream_nil, List.take_nil]
      decide
  | cons p rest ih =>
    intro k hwf hk
    have hwp : p.head? = some '[' := hwf p (by simp)
    rw [encodeStream_cons] at hk
    simp only [List.length_append] at hk
    by_cases hcase : (encodeFrame p).length ≤ k
    · have htk : (encodeStream (p :: rest)).take k =
          encodeFrame p ++ (encodeStream rest).take (k - (encodeFrame p).length) := by
        rw [encodeStream_cons, List.take_append_eq_append_take,
          List.take_of_length_le hcase]
      obtain ⟨ps1, ps2, m, heq, hm, hbound, hhead, hpb⟩ :=
        ih (k - (encodeFrame p).length) (fun q hq => hwf q (by simp [hq])) (by omega)
      refine ⟨p :: ps1, ps2, m, by simp [heq], ?_, hbound, hhead, ?_⟩
      · rw [encodeStream_cons]
        simp only [List.length_append]
        omega
      · rw [htk, processBuffer_cons p _ hwp, hpb]
        simp
    · have hklt : k < (encodeFrame p).length := by omega
      have htk : (encodeStream (p :: rest)).take k = (encodeFrame p).take k := by
        rw [encodeStream_cons, List.take_append_eq_append_take,
          Nat.sub_eq_zero_of_le (by omega)]
        simp
      refine ⟨[], p :: rest, k, rfl, by simp [encodeStream_nil], ?_, ?_, ?_⟩
      · rw [encodeStream_cons]
        simp only [List.length_append]
        omega
      · intro q l hql
        cases hql
        exact hklt
      · rw [htk, processBuffer_short p hwp k hklt]
        rw [← htk]
        simp

/-- Incremental feeding of the remainder of an encoded stream, starting
from a strictly partial first-frame state, dispatches all frames of the
stream and ends with an empty buffer. -/
theorem feedChunks_stream :
    ∀ (chunks : List (List Char)) (ps : List (List Char)) (k : Nat),
      (∀ p ∈ ps, p.head? = some '[') →
      k ≤ (encodeStream ps).length →
      (∀ q l, ps = q :: l → k < (encodeFrame q).length) →
      (encodeStream ps).take k ++ chunks.flatten = encodeStream ps →
      feedChunks chunks ((encodeStream ps).take k) =
        some (ps.map (fun p => (p, (p.length : Int))), []) := by
  intro chunks
  induction chunks with
  | nil =>
    intro ps k hwf hk hhead hstream
    simp only [List.flatten_nil, List.append_nil] at hstream
    have hlen : (encodeStream ps).length ≤ k := by
      have := congrArg List.length hstream
      simp only [List.length_take] at this
      omega
    cases ps with
    | nil => simp [feedChunks, encodeStream_nil]
    | cons q l =>
      exfalso
      have h1 := hhead q l rfl
      have h2 : (encodeFrame q).length ≤ (encodeStream (q :: l)).length := by
        rw [encodeStream_cons]
        simp
      omega
  | cons c cs ih =>
    intro ps k hwf hk hhead hstream
    rw [List.flatten_cons, ← List.append_assoc] at hstream
    have hdrop : c ++ cs.flatten = (encodeStream ps).drop k := by
      apply @List.append_cancel_left _ ((encodeStream ps).take k)
      rw [← List.append_assoc, hstream, List.take_append_drop]
    have hclen : k + c.length ≤ (encodeStream ps).length := by
      have := congrArg List.length hdrop
      simp only [List.length_append, List.length_drop] at this
      omega
    have hbc : (encodeStream ps).take k ++ c = (encodeStream ps).take (k + c.length) := by
      rw [List.take_add]
      congr 1
      rw [← hdrop, List.take_left]
    obtain ⟨ps1, ps2, m, heq, hm, hbound, hhead2, hpb⟩ :=
      processBuffer_take ps (k + c.length) hwf hclen
    have hsplit : encodeStream ps = encodeStream ps1 ++ encodeStream ps2 := by
      rw [heq, encodeStream_append]
    have hdrop2 : (encodeStream ps).drop (k + c.length) = (encodeStream ps2).drop m := by
      rw [hsplit, hm, List.drop_append_eq_append_drop,
        List.drop_eq_nil_of_le (by omega)]
      simp
    have hstream2 : (encodeStream ps2).take m ++ cs.flatten = encodeStream ps2 := by
      have hflat : cs.flatten = (encodeStream ps2).drop m := by
        have h1 : (encodeStream ps).take (k + c.length) ++ cs.flatten = encodeStream ps := by
          rw [← hbc, List.append_assoc, hdrop, List.take_append_drop]
        apply @List.append_cancel_left _ ((encodeStream ps2).take m)
        rw [List.take_append_drop]
        apply @List.append_cancel_left _ (encodeStream ps1)
        have h2 : encodeStream ps1 ++ ((encodeStream ps2).take m ++ cs.flatten) =
            (encodeStream ps).take (k + c.length) ++ cs.flatten := by
          rw [← List.append_assoc]
          congr 1
          have h3 : (encodeStream ps).take (k + c.length) =
              (encodeStream ps).take ((encodeStream ps1).length + m) := by rw [hm]
          rw [h3, hsplit, List.take_add, List.take_left, List.drop_left]
        rw [h2, h1, hsplit]
      rw [hflat, List.take_append_drop]
    have hrec := ih ps2 m (fun q hq => hwf q (by simp [heq, hq])) hbound hhead2 hstream2
    show (match processBuffer ((encodeStream ps).take k ++ c) with
      | none => none
      | some (fs, buf2) =>
        match feedChunks cs buf2 with
        | none => none
        | some (fs2, r) => some (fs ++ fs2, r)) =
      some (ps.map (fun p => (p, (p.length : Int))), [])
    rw [hbc, hpb]
    simp only [hrec]
    rw [heq]
    simp

/-- C1: for every sequence of well-formed frames (payloads beginning
with '[') encoded as <decimal-length><payload>, feeding the encoded
byte stream to the framer in arbitrary chunks — processBuffer applied to
the accumulated buffer after each chunk — dispatches exactly the same
ordered list of frame payloads (with their parsed lengths) as feeding
the whole stream at once, and both decode the stream completely. -/
theorem claim1_chunk_independence (ps chunks : List (List Char))
    (hwf : ∀ p ∈ ps, p.head? = some '[')
    (hjoin : chunks.flatten = encodeStream ps) :
    feedChunks chunks [] = some (ps.map (fun p => (p, (p.length : Int))), []) ∧
    processBuffer (encodeStream ps) = some (ps.map (fun p => (p, (p.length : Int))), []) := by
  have hz : (encodeStream ps).take 0 = [] := by simp
  have hhead : ∀ q l, ps = q :: l → 0 < (encodeFrame q).length := fun q _ _ => encodeFrame_pos q
  have h1 := feedChunks_stream chunks ps 0 hwf (by omega) hhead (by rw [hz]; simpa using hjoin)
  rw [hz] at h1
  refine ⟨h1, ?_⟩
  have h2 := feedChunks_stream [encodeStream ps] ps 0 hwf (by omega) hhead (by rw [hz]; simp)
  rw [hz] at h2
  simp only [feedChunks, List.nil_append] at h2
  cases hb : processBuffer (encodeStream ps) with
  | none => rw [hb] at h2; exact absurd h2 (by simp)
  | some pr =>
    obtain ⟨fs, b2⟩ := pr
    rw [hb] at h2
    simp only [feedChunks] at h2
    simp at h2
    rw [h2.1, h2.2]

/-- Witness for C1 on the spec's worked example: payloads [1,2] and
[3,4,5] encode to 5[1,2]7[3,4,5], fed as three chunks cutting both
frames. -/
theorem claim1_witness :
    feedChunks ["5[1".toList, ",2]7[3,4".toList, ",5]".toList] [] =
      some (["[1,2]".toList, "[3,4,5]".toList].map (fun p => (p, (p.length : Int))), []) ∧
    processBuffer (encodeStream ["[1,2]".toList, "[3,4,5]".toList]) =
      some (["[1,2]".toList, "[3,4,5]".toList].map (fun p => (p, (p.length : Int))), []) :=
  claim1_chunk_independence ["[1,2]".toList, "[3,4,5]".toList]
    ["5[1".toList, ",2]7[3,4".toList, ",5]".toList] (by decide) (by decide)

end Yt
